import Mathlib

/-!
Verification of the telemetry upload pipeline against its sources:
the server-side upload handler and report validator
(`godev/cmd/telemetrygodev/main.go`), the client-side uploader entry point
(the `upload` package), and the crash-monitor expectations recorded in
`crashmonitor/monitor_test.go`.

External library behavior used by the code (Go's `time.Parse` with layout
`"2006-01-02"`, `golang.org/x/mod/semver.IsValid`) is embedded concretely
below, translated from those libraries' parsing algorithms.
-/

namespace Telemetry

/-! ## Date parsing: Go `time.Parse("2006-01-02", week)`

Go's parser for this layout consumes exactly four digits of year, a dash,
two digits of month, a dash, two digits of day, with nothing left over;
it then range-checks the month (1..12) and the day against the length of
that month in that year. -/

def isDigitChar (c : Char) : Bool := '0' ≤ c && c ≤ '9'

def digitVal (c : Char) : Nat := c.toNat - 48

/-- Leap year rule used by Go's `time` package (proleptic Gregorian). -/
def isLeapYear (y : Nat) : Bool :=
  y % 4 == 0 && (y % 100 != 0 || y % 400 == 0)

/-- `daysIn m y`: number of days of month `m` in year `y` (Go `time.daysIn`). -/
def daysIn (m y : Nat) : Nat :=
  if m == 2 then (if isLeapYear y then 29 else 28)
  else if m == 4 || m == 6 || m == 9 || m == 11 then 30
  else 31

/-- `parseWeek s = true` iff Go's `time.Parse("2006-01-02", s)` succeeds:
`s` is exactly `YYYY-MM-DD` with all-digit fields, month in 1..12 and day
in 1..daysIn(month, year). -/
def parseWeek (s : String) : Bool :=
  match s.toList with
  | [y1, y2, y3, y4, c1, m1, m2, c2, d1, d2] =>
    isDigitChar y1 && isDigitChar y2 && isDigitChar y3 && isDigitChar y4 &&
    c1 == '-' && isDigitChar m1 && isDigitChar m2 &&
    c2 == '-' && isDigitChar d1 && isDigitChar d2 &&
    (let y := ((digitVal y1 * 10 + digitVal y2) * 10 + digitVal y3) * 10 + digitVal y4
     let m := digitVal m1 * 10 + digitVal m2
     let d := digitVal d1 * 10 + digitVal d2
     1 ≤ m && m ≤ 12 && 1 ≤ d && d ≤ daysIn m y)
  | _ => false

/-! ## Semantic versions: `golang.org/x/mod/semver.IsValid`

Translated from `semver.parse` and its helpers `parseInt`,
`parsePrerelease`, `parseBuild`, `isIdentChar`, `isBadNum`. -/

def isIdentChar (c : Char) : Bool :=
  ('A' ≤ c && c ≤ 'Z') || ('a' ≤ c && c ≤ 'z') || ('0' ≤ c && c ≤ '9') || c == '-'

/-- `semver.isBadNum`: all digits, more than one of them, leading zero. -/
def isBadNum (l : List Char) : Bool :=
  l.all isDigitChar && decide (1 < l.length) && l.headI == '0'

/-- `semver.parseInt`: consume a nonempty run of digits with no leading zero
(unless the number is the single digit `0`); return the rest on success. -/
def parseNum : List Char → Option (List Char)
  | [] => none
  | c :: cs =>
    if !isDigitChar c then none
    else
      let digits := cs.takeWhile isDigitChar
      if c == '0' && !digits.isEmpty then none
      else some (cs.drop digits.length)

/-- Scanner for `semver.parsePrerelease`: dot-separated nonempty identifiers
of ident chars, numeric identifiers free of leading zeros, stopping at `+`.
`seg` accumulates the current identifier (in reverse); returns the rest. -/
def preScan : List Char → List Char → Option (List Char)
  | [], seg => if seg.isEmpty || isBadNum seg.reverse then none else some []
  | '+' :: rest, seg =>
    if seg.isEmpty || isBadNum seg.reverse then none else some ('+' :: rest)
  | '.' :: cs, seg =>
    if seg.isEmpty || isBadNum seg.reverse then none else preScan cs []
  | c :: cs, seg => if isIdentChar c then preScan cs (c :: seg) else none

/-- Scanner for `semver.parseBuild`: dot-separated nonempty identifiers of
ident chars, running to the end of the string. -/
def buildScan : List Char → List Char → Bool
  | [], seg => !seg.isEmpty
  | '.' :: cs, seg => if seg.isEmpty then false else buildScan cs []
  | c :: cs, seg => if isIdentChar c then buildScan cs (c :: seg) else false

/-- Suffix allowed after `vMAJOR.MINOR.PATCH`: optional `-prerelease`,
optional `+build`, then end of input (`semver.parse`, tail). -/
def afterPatch : List Char → Bool
  | [] => true
  | '-' :: cs =>
    match preScan cs [] with
    | none => false
    | some [] => true
    | some ('+' :: bs) => buildScan bs []
    | some _ => false
  | '+' :: cs => buildScan cs []
  | _ => false

/-- `semver.IsValid`: a leading `v`, then 1 to 3 dot-separated numbers, then
the optional prerelease/build suffix (only after a full triple). -/
def semverIsValid (s : String) : Bool :=
  match s.toList with
  | 'v' :: rest =>
    match parseNum rest with
    | none => false
    | some r1 =>
      match r1 with
      | [] => true
      | '.' :: r2 =>
        match parseNum r2 with
        | none => false
        | some r3 =>
          match r3 with
          | [] => true
          | '.' :: r4 =>
            match parseNum r4 with
            | none => false
            | some r5 => afterPatch r5
          | _ => false
      | _ => false
  | _ => false

/-! ## Rendering of the report shard key `X` (Go `fmt` verb `%g`)

`X` is a float64 in Go; in the embedding it is carried as the exact
rational value of that float64. `%g` with shortest precision is
`strconv.FormatFloat(x, 'g', -1, 64)`: the shortest decimal string that
parses back to exactly `x` (round to nearest, ties to even), written in
`%e` form when its decimal exponent is below -4 or at least 6 and in `%f`
form otherwise. The implementation below works on plain numerator and
denominator arithmetic. -/

/-- Fuel-based `⌊log2 n⌋` (0 for `n = 0`). -/
def natLog2F : Nat → Nat → Nat
  | 0, _ => 0
  | fuel + 1, n => if 2 ≤ n then natLog2F fuel (n / 2) + 1 else 0

/-- Fuel-based `⌊log10 n⌋` (0 for `n = 0`). -/
def natLog10F : Nat → Nat → Nat
  | 0, _ => 0
  | fuel + 1, n => if 10 ≤ n then natLog10F fuel (n / 10) + 1 else 0

/-- Enough fuel for every numerator and denominator arising from binary64
values (all below 2^1200). -/
def logFuel : Nat := 1200

/-- Whether `2^k ≤ n/d`, for positive `n/d`. -/
def pow2LE (k : ℤ) (n d : Nat) : Bool :=
  if 0 ≤ k then d * 2 ^ k.toNat ≤ n else d ≤ n * 2 ^ (-k).toNat

/-- Whether `10^k ≤ n/d`, for positive `n/d`. -/
def pow10LE (k : ℤ) (n d : Nat) : Bool :=
  if 0 ≤ k then d * 10 ^ k.toNat ≤ n else d ≤ n * 10 ^ (-k).toNat

/-- `⌊log2 (n/d)⌋` for positive `n/d`. -/
def log2floorF (n d : Nat) : ℤ :=
  let k : ℤ := (natLog2F logFuel n : ℤ) - (natLog2F logFuel d : ℤ)
  if pow2LE k n d then k else k - 1

/-- `⌊log10 (n/d)⌋` for positive `n/d`. -/
def log10floorF (n d : Nat) : ℤ :=
  let k : ℤ := (natLog10F logFuel n : ℤ) - (natLog10F logFuel d : ℤ)
  if pow10LE k n d then k else k - 1

/-- `n/d` rounded to the nearest natural, ties to the even one (the
rounding of every binary and decimal rounding step of float formatting). -/
def rheF (n d : Nat) : Nat :=
  let f := n / d
  let r := n % d
  if 2 * r < d then f
  else if d < 2 * r then f + 1
  else if f % 2 = 0 then f else f + 1

/-- Mantissa and exponent `(m, ef)` of the binary64 value nearest to the
positive rational `n/d` (round to nearest, ties to even): the value is
`m * 2^ef` with `2^52 ≤ m < 2^53`, or `m < 2^52` at the subnormal exponent
`-1074`; `m = 0` is an underflow to zero and `ef > 971` an overflow to
infinity. The identity on binary64 values, such as a decoded `X`. -/
def floatParts (n d : Nat) : Nat × ℤ :=
  let ef := max (log2floorF n d - 52) (-1074)
  let m := rheF (n * 2 ^ (-ef).toNat) (d * 2 ^ ef.toNat)
  if m = 2 ^ 53 then (2 ^ 52, ef + 1) else (m, ef)

/-- Search, by increasing digit count `p`, for the shortest decimal
`c * 10^(e10hi - p + 1)` inside the parse-back interval
`[lowN * 2^Q, highN * 2^Q]` (ends included iff `inc`) of the value
`vN * 2^Q`; among the `p`-digit candidates the nearest to the value is
taken, ties to the even digit. Returns the digits `c` (without trailing
zeros) and the decimal exponent `e10hi` of the leading digit. -/
def shortestLoopF (vN lowN highN : Nat) (Q : ℤ) (inc : Bool) (e10hi : ℤ) :
    Nat → Nat → Nat × ℤ
  | _, 0 => (0, 0)
  | p, fuel + 1 =>
    let k := e10hi - (p : ℤ) + 1
    let b := 2 ^ (-Q).toNat * 10 ^ k.toNat
    let sc := 2 ^ Q.toNat * 10 ^ (-k).toNat
    let aLo := lowN * sc
    let aHi := highN * sc
    let l0 := (aLo + b - 1) / b
    let l1 := if !inc && aLo % b == 0 then l0 + 1 else l0
    let h0 := aHi / b
    let h1 := if !inc && aHi % b == 0 then h0 - 1 else h0
    let dlo := max l1 (10 ^ (p - 1))
    let dhi := min h1 (10 ^ p - 1)
    if dlo ≤ dhi then
      (min (max (rheF (vN * sc) b) dlo) dhi, e10hi)
    else shortestLoopF vN lowN highN Q inc e10hi (p + 1) fuel

/-- Shortest round-tripping decimal of the positive binary64 value
`m * 2^ef`: at the scale `2^(ef-2)` the value is `4m`; decimals up to half
an ulp away (`4m + 2`, and `4m - 2` below — only `4m - 1` at a binade
boundary, where the grid below is finer) parse back to it, the interval
ends doing so exactly when `m` is even (ties go to the even mantissa). -/
def shortestDigitsF (m : Nat) (ef : ℤ) : Nat × ℤ :=
  let Q := ef - 2
  let lowN := if m = 2 ^ 52 ∧ ef > -1074 then 4 * m - 1 else 4 * m - 2
  let highN := 4 * m + 2
  let e10hi := log10floorF (highN * 2 ^ Q.toNat) (2 ^ (-Q).toNat)
  shortestLoopF (4 * m) lowN highN Q (m % 2 == 0) e10hi 1 18

def zeroString (n : Nat) : String := String.mk (List.replicate n '0')

/-- The exponent part of Go's `%e` form: sign always, at least two digits. -/
def expPart (e : ℤ) : String :=
  let a := (if e < 0 then -e else e).toNat
  let s := if a < 10 then "0" ++ Nat.repr a else Nat.repr a
  (if e < 0 then "e-" else "e+") ++ s

/-- Go `fmt` verb `%g` on a float64, i.e.
`strconv.FormatFloat(x, 'g', -1, 64)`: the argument (the exact rational
value of the float) is rounded onto the binary64 grid (the identity for any
decoded float64), the shortest decimal that parses back to that value is
selected, and rendered in `%e` form when its decimal exponent is below -4
or at least 6, else in `%f` form; overflow prints as Go's `+Inf`/`-Inf`. -/
def formatG (q : ℚ) : String :=
  if q.num = 0 then "0"
  else
    let sign := if q.num < 0 then "-" else ""
    let me := floatParts q.num.natAbs q.den
    if me.1 = 0 then "0"
    else if 971 < me.2 then (if q.num < 0 then "-Inf" else "+Inf")
    else
      let de := shortestDigitsF me.1 me.2
      let s := Nat.repr de.1
      let e10 := de.2
      let body :=
        if e10 < -4 ∨ 6 ≤ e10 then
          (if s.length = 1 then s else s.take 1 ++ "." ++ s.drop 1) ++
            expPart e10
        else if (s.length : ℤ) ≤ e10 + 1 then
          s ++ zeroString (e10 + 1 - (s.length : ℤ)).toNat
        else if 0 ≤ e10 then
          s.take (e10.toNat + 1) ++ "." ++ s.drop (e10.toNat + 1)
        else
          "0." ++ zeroString (-e10 - 1).toNat ++ s
      sign ++ body

/-! ## Data model: `telemetry.Report` and the upload configuration -/

/-- `telemetry.ProgramReport`: one program's counters for the week. Go maps
`Counters`/`Stacks` (counter name → int64 count) are embedded as association
lists. -/
structure ProgramReport where
  Program : String
  Version : String
  GoVersion : String
  GOOS : String
  GOARCH : String
  Counters : List (String × Int)
  Stacks : List (String × Int)

/-- `telemetry.Report`: the unit of upload. `X` is a float64 in Go, embedded
as a rational (its exact value). -/
structure Report where
  Week : String
  LastWeek : String
  X : ℚ
  Programs : List ProgramReport
  Config : String

/-- Modelled from the spec: the upload configuration is "the versioned
allow-list of permitted platforms, programs, versions, counters, and stack
prefixes". The `internal/config` package backing the `HasGOARCH`, `HasGOOS`,
`HasGoVersion`, `HasProgram`, `HasVersion`, `HasCounter` and `HasStack`
lookups is not part of these sources, so the allow-list is embedded as
explicit finite lists with membership lookups. -/
structure Config where
  goosList : List String
  goarchList : List String
  goVersionList : List String
  programList : List String
  versionList : List (String × String)
  counterList : List (String × String)
  stackList : List (String × String)

def Config.HasGOOS (c : Config) (goos : String) : Bool := c.goosList.contains goos

def Config.HasGOARCH (c : Config) (goarch : String) : Bool := c.goarchList.contains goarch

def Config.HasGoVersion (c : Config) (v : String) : Bool := c.goVersionList.contains v

def Config.HasProgram (c : Config) (p : String) : Bool := c.programList.contains p

def Config.HasVersion (c : Config) (p v : String) : Bool := c.versionList.contains (p, v)

def Config.HasCounter (c : Config) (p k : String) : Bool := c.counterList.contains (p, k)

def Config.HasStack (c : Config) (p s : String) : Bool := c.stackList.contains (p, s)

/-- `strings.Cut(s, "\n")`: the part of `s` before the first newline (all of
`s` when it has no newline). -/
def firstLine (s : String) : String :=
  (s.toList.takeWhile (fun c => !(c == '\n'))).asString

/-! ## Server-side validation: `validate` (telemetrygodev/main.go) -/

/-- Body of `validate`'s per-program loop: the build-tuple check, then the
counter-key loop, then the stack-key loop, returning the first error. -/
def validateProgram (cfg : Config) (p : ProgramReport) : Option String :=
  if !cfg.HasGOARCH p.GOARCH || !cfg.HasGOOS p.GOOS ||
      !cfg.HasGoVersion p.GoVersion || !cfg.HasProgram p.Program ||
      !cfg.HasVersion p.Program p.Version then
    some ("unknown program build " ++ p.Program ++ "@" ++ p.Version ++ " " ++
      p.GoVersion ++ " " ++ p.GOOS ++ "/" ++ p.GOARCH)
  else
    match p.Counters.findSome? (fun kv =>
        if !cfg.HasCounter p.Program kv.1 then some ("unknown counter " ++ kv.1)
        else none) with
    | some e => some e
    | none =>
      p.Stacks.findSome? (fun kv =>
        if !cfg.HasStack p.Program (firstLine kv.1) then
          some ("unknown stack " ++ kv.1)
        else none)

/-- `validate` (telemetrygodev/main.go): validates the telemetry report data
against the latest config. `none` embeds Go's `nil` error. -/
def validate (r : Report) (cfg : Config) : Option String :=
  if !parseWeek r.Week then some ("invalid week " ++ r.Week)
  else if !semverIsValid r.Config then some ("invalid config " ++ r.Config)
  else if r.X == 0 then some ("invalid X " ++ formatG r.X)
  else r.Programs.findSome? (validateProgram cfg)

/-! ## The upload endpoint: `handleUpload` (telemetrygodev/main.go)

The HTTP and storage boundaries are embedded as follows: the request is a
method string plus the outcome of `json.NewDecoder(r.Body).Decode` (an
`Except` value — `error e` for a JSON decoding failure, `ok report` for a
decoded report); the upload bucket is a map from object names to stored
reports (a stored report stands for its serialized JSON, which is a function
of the report value); `Object(name).NewWriter` / `Encode` / `Close` on the
success path is an atomic overwrite of that name. -/

def Bucket : Type := String → Option Report

/-- Overwrite of one object in the upload bucket. -/
def Bucket.write (b : Bucket) (name : String) (r : Report) : Bucket :=
  fun n => if n = name then some r else b n

/-- The object name `fmt.Sprintf("%s/%g.json", report.Week, report.X)`. -/
def uploadName (r : Report) : String :=
  r.Week ++ "/" ++ formatG r.X ++ ".json"

/-- `warn`'s truncation of an error message (telemetrygodev/main.go): the
rune sequence of the message, capped at 79 runes plus `…` when longer than
80 runes. -/
def truncateForLog (s : String) : String :=
  let errs := s.toList
  if 80 < errs.length then ((errs.take 79).asString).push '…' else s

/-- The full line logged by `handleUpload`'s `warn` closure. -/
def warnLine (msg errText : String) : String :=
  msg ++ ": " ++ truncateForLog errText

/-- Outcome of one request to the upload endpoint: HTTP status, response
body, and the resulting bucket state. -/
structure UploadResponse where
  status : Nat
  body : String
  bucket : Bucket

/-- `handleUpload` (telemetrygodev/main.go): non-POST gets 405; a JSON
decoding failure or a `validate` error gets 400 with the error text and
leaves the bucket untouched; otherwise the report is stored at
`uploadName` and the status is 200. -/
def handleUpload (method : String) (payload : Except String Report)
    (cfg : Config) (b : Bucket) : UploadResponse :=
  if method = "POST" then
    match payload with
    | .error e => ⟨400, e, b⟩
    | .ok report =>
      match validate report cfg with
      | some e => ⟨400, e, b⟩
      | none => ⟨200, "", b.write (uploadName report) report⟩
  else ⟨405, "", b⟩

/-! ## Client-side uploader: the `upload` package -/

/-- `disabledOnPlatform` (upload package): compile-time constant over
`runtime.GOOS` / `runtime.GOARCH`, embedded as a function of the two
strings. -/
def disabledOnPlatform (goos goarch : String) : Bool :=
  false ||
  goos == "openbsd" ||
  goos == "solaris" ||
  goos == "android" ||
  goos == "js" ||
  goos == "wasip1" ||
  goarch == "386"

/-- Modelled from the spec: the bodies of `Uploader.findWork`,
`Uploader.reports`, `uploadReport` and the package logger are not part of
these sources, so they are abstracted as arbitrary transformers of an
ambient state `σ` (file system, network, logs). `findWork` yields a work
description `τ`; `reports` yields the list of ready report files plus an
optional error; `uploadReport` attempts one upload, succeeding or failing
inside `σ`. -/
structure UploaderOps (σ τ : Type) where
  findWork : σ → σ × τ
  reports : τ → σ → σ × List String × Option String
  uploadReport : String → σ → σ
  logPrintf : String → σ → σ

/-- `Uploader.Run` (upload package): the platform check, then `findWork`,
then `reports` (logging its error, if any), then one `uploadReport` per
ready report, in order and unconditionally. Besides the final state, the
embedding returns the trace of report files whose upload was attempted. -/
def Uploader.Run {σ τ : Type} (ops : UploaderOps σ τ) (goos goarch : String)
    (st : σ) : σ × List String :=
  if disabledOnPlatform goos goarch then (st, [])
  else
    let s1 := ops.findWork st
    let s2 := ops.reports s1.2 s1.1
    let s3 := match s2.2.2 with
      | some e => ops.logPrintf ("reports: " ++ e) s2.1
      | none => s2.1
    s2.2.1.foldl (fun acc f => (ops.uploadReport f acc.1, acc.2 ++ [f])) (s3, [])

/-- The ready list that `Uploader.Run` iterates over, recomputed from the
same operations and initial state. -/
def readyReports {σ τ : Type} (ops : UploaderOps σ τ) (st : σ) : List String :=
  (ops.reports (ops.findWork st).2 (ops.findWork st).1).2.1

/-! ## Crash monitor: expected sanitized counter names
(crashmonitor/monitor_test.go)

The sanitizer implementation is not part of these sources; the tests pin
its expected outputs exactly, and those expectations are embedded here
verbatim. -/

/-- The sanitized counter name that `TestViaStderr` asserts for the panic in
`grandchild` (line numbers outside the crashmonitor package redacted by the
test's `sanitize` helper). -/
def viaStderrWant : String :=
  "crash/crash\n" ++
  "runtime.gopanic:--\n" ++
  "golang.org/x/telemetry/crashmonitor.grandchild:1\n" ++
  "golang.org/x/telemetry/crashmonitor.child:2\n" ++
  "golang.org/x/telemetry/crashmonitor.TestMain:9\n" ++
  "main.main:--\n" ++
  "runtime.main:--\n" ++
  "runtime.goexit:--"

/-- The sanitized counter name that `TestStart`'s `panic` subtest asserts. -/
def startPanicWant : String :=
  "crash/crash\n" ++
  "runtime.gopanic:--\n" ++
  "golang.org/x/telemetry/crashmonitor.grandchild:1\n" ++
  "golang.org/x/telemetry/crashmonitor.child:2\n" ++
  "golang.org/x/telemetry/crashmonitor.TestMain.func2:1\n" ++
  "runtime.goexit:--"

/-- The import path of the crash-monitor's own package, as it appears in the
tests' expected frames. -/
def crashmonitorPkg : String := "golang.org/x/telemetry/crashmonitor"

/-- Split a counter name into its lines (at `\n`). -/
def splitNl : List Char → List (List Char)
  | [] => [[]]
  | '\n' :: cs => [] :: splitNl cs
  | c :: cs =>
    match splitNl cs with
    | [] => [[c]]
    | l :: ls => (c :: l) :: ls

/-- The frame lines of a stack-counter name: every line after the first
(category) line. -/
def frameLines (name : String) : List String :=
  ((splitNl name.toList).map List.asString).drop 1

/-- Whether a frame line names a symbol of the crashmonitor package: it
starts with the package path followed by a dot. -/
def frameInCrashmonitorPkg (line : String) : Bool :=
  (crashmonitorPkg ++ ".").toList.isPrefixOf line.toList

/-- Whether a frame line names the given function of the crashmonitor
package. -/
def frameIsCrashmonitorFunc (line : String) (f : String) : Bool :=
  (crashmonitorPkg ++ "." ++ f ++ ":").toList.isPrefixOf line.toList

/-- The crash-monitor machinery functions visible in these sources (the
monitor's own capture/report path, referenced from monitor_test.go). -/
def monitorMachineryFuncs : List String :=
  ["Start", "Supported", "telemetryCounterName", "writeSentinel",
   "incrementCounter"]

/-! ## Spec-side predicates (for the refinement claim about `validate`)

These restate, in the specification's words, when a report must be
rejected; they are compared with the embedded `validate` above. -/

/-- Spec wording, per program: the build tuple is absent from the
allow-list, or some counter key is not a configured counter, or some stack
key's first line is not a configured stack-counter prefix. -/
def programRejected (cfg : Config) (p : ProgramReport) : Prop :=
  cfg.HasGOARCH p.GOARCH = false ∨ cfg.HasGOOS p.GOOS = false ∨
  cfg.HasGoVersion p.GoVersion = false ∨ cfg.HasProgram p.Program = false ∨
  cfg.HasVersion p.Program p.Version = false ∨
  (∃ kv ∈ p.Counters, cfg.HasCounter p.Program kv.1 = false) ∨
  (∃ kv ∈ p.Stacks, cfg.HasStack p.Program (firstLine kv.1) = false)

/-- Spec wording, per report: the week does not parse as a date, or the
config is not valid semver, or `X` is zero, or some program report is
rejected. -/
def reportRejected (r : Report) (cfg : Config) : Prop :=
  parseWeek r.Week = false ∨ semverIsValid r.Config = false ∨ r.X = 0 ∨
  ∃ p ∈ r.Programs, programRejected cfg p

/-- A POSTed payload that fails validation: either JSON decoding failed, or
the decoded report fails `validate`. -/
def payloadInvalid (payload : Except String Report) (cfg : Config) : Bool :=
  match payload with
  | .error _ => true
  | .ok r => (validate r cfg).isSome

/-! ## Concrete fixtures used by the witness theorems -/

def cfg0 : Config :=
  ⟨["linux"], ["amd64"], ["go1.22"], ["go"], [("go", "go1.22")],
   [("go", "compile/success")], [("go", "crash/crash")]⟩

def progReport0 : ProgramReport :=
  ⟨"go", "go1.22", "go1.22", "linux", "amd64", [("compile/success", 3)],
   [("crash/crash\nruntime.gopanic:--", 1)]⟩

def report0 : Report :=
  ⟨"2024-01-08", "2024-01-01", 1, [progReport0], "v1.2.3"⟩

def reportEmpty : Report :=
  ⟨"2024-01-08", "2024-01-01", 1, [], "v1.2.3"⟩

def emptyBucket : Bucket := fun _ => none

/-- Concrete uploader operations over a step-counting state, for the
disabled-platform witness. -/
def opsDisabled : UploaderOps Nat Unit :=
  ⟨fun s => (s + 1, ()), fun _ s => (s + 1, ["a"], none),
   fun _ s => s + 1, fun _ s => s + 1⟩

/-- Concrete uploader operations in which `reports` also returns an error
and the upload of report `"b"` fails (leaves no success mark), for the
partial-failure witness. -/
def opsOneFails : UploaderOps Nat Unit :=
  ⟨fun s => (s, ()), fun _ s => (s, ["a", "b", "c"], some "boom"),
   fun f s => if f = "b" then s else s + 1, fun _ s => s⟩

/-! ## Helper lemmas -/

theorem findSome?_ne_none_iff {α β : Type} (f : α → Option β) (l : List α) :
    l.findSome? f ≠ none ↔ ∃ a ∈ l, f a ≠ none := by
  induction l with
  | nil => simp [List.findSome?]
  | cons a as ih =>
    cases h : f a with
    | some b => simp [List.findSome?_cons, h]
    | none => simp [List.findSome?_cons, h, ih]

theorem validateProgram_ne_none_iff (cfg : Config) (p : ProgramReport) :
    validateProgram cfg p ≠ none ↔ programRejected cfg p := by
  unfold validateProgram programRejected
  by_cases hb : (!cfg.HasGOARCH p.GOARCH || !cfg.HasGOOS p.GOOS ||
      !cfg.HasGoVersion p.GoVersion || !cfg.HasProgram p.Program ||
      !cfg.HasVersion p.Program p.Version) = true
  · simp only [hb, if_true]
    simp only [Bool.or_eq_true, Bool.not_eq_true'] at hb
    simp only [ne_eq, reduceCtorEq, not_false_iff, true_iff]
    tauto
  · simp only [Bool.not_eq_true] at hb
    simp only [hb, Bool.false_eq_true, if_false]
    simp only [Bool.or_eq_false_iff] at hb
    obtain ⟨⟨⟨⟨h1, h2⟩, h3⟩, h4⟩, h5⟩ := hb
    simp only [Bool.not_eq_false'] at h1 h2 h3 h4 h5
    simp only [h1, h2, h3, h4, h5, Bool.true_eq_false, false_or]
    cases hc : p.Counters.findSome? (fun kv =>
        if !cfg.HasCounter p.Program kv.1 then some ("unknown counter " ++ kv.1)
        else none) with
    | some e =>
      simp only [ne_eq, reduceCtorEq, not_false_iff, true_iff]
      have hex := (findSome?_ne_none_iff _ p.Counters).mp (by rw [hc]; simp)
      obtain ⟨kv, hmem, hne⟩ := hex
      refine Or.inl ⟨kv, hmem, ?_⟩
      by_cases hcc : cfg.HasCounter p.Program kv.1 <;> simp [hcc] at hne ⊢
    | none =>
      have hnone : ¬ ∃ kv ∈ p.Counters,
          (if !cfg.HasCounter p.Program kv.1 then some ("unknown counter " ++ kv.1)
            else none) ≠ (none : Option String) := by
        intro hex
        exact (findSome?_ne_none_iff _ p.Counters).mpr hex hc
      have hcall : ∀ kv ∈ p.Counters, cfg.HasCounter p.Program kv.1 = true := by
        intro kv hmem
        by_cases hcc : cfg.HasCounter p.Program kv.1
        · exact hcc
        · exact absurd ⟨kv, hmem, by simp [hcc]⟩ hnone
      rw [findSome?_ne_none_iff]
      constructor
      · intro ⟨kv, hmem, hne⟩
        refine Or.inr ⟨kv, hmem, ?_⟩
        by_cases hs : cfg.HasStack p.Program (firstLine kv.1) <;> simp [hs] at hne ⊢
      · rintro (⟨kv, hmem, hbad⟩ | ⟨kv, hmem, hbad⟩)
        · rw [hcall kv hmem] at hbad
          exact absurd hbad (by simp)
        · exact ⟨kv, hmem, by simp [hbad]⟩

theorem bucket_write_write (b : Bucket) (n : String) (r : Report) :
    Bucket.write (Bucket.write b n r) n r = Bucket.write b n r := by
  funext x
  unfold Bucket.write
  by_cases hx : x = n <;> simp [hx]

theorem foldl_upload_trace {σ : Type} (up : String → σ → σ) (l : List String)
    (st : σ) (acc : List String) :
    (l.foldl (fun a f => (up f a.1, a.2 ++ [f])) (st, acc)).2 = acc ++ l := by
  induction l generalizing st acc with
  | nil => simp
  | cons x xs ih => simp [List.foldl_cons, ih]

set_option maxHeartbeats 2000000 in
/-- Kernel-checked agreement of `formatG` with Go's `%g` output on
characteristic float64 values: the float64 decoded from `1e-05` (scientific
form below exponent -4), the exact value of float64 `0.2`
(3602879701896397 / 2^54: shortest round-trip `0.2`, not the exact
17-digit expansion), `1e21` and `1e6` (scientific form at exponent ≥ 6),
`1e5` (plain form below it), the float64 of `1/3`, and a negative
fraction. -/
theorem formatG_go_samples :
    formatG (mkRat 1 100000) = "1e-05" ∧
    formatG (mkRat 3602879701896397 18014398509481984) = "0.2" ∧
    formatG (mkRat 1000000000000000000000 1) = "1e+21" ∧
    formatG (mkRat 1000000 1) = "1e+06" ∧
    formatG (mkRat 100000 1) = "100000" ∧
    formatG (mkRat 6004799503160661 18014398509481984) = "0.3333333333333333" ∧
    formatG (mkRat (-3) 4) = "-0.75" := by
  refine ⟨?_, ?_, ?_, ?_, ?_, ?_, ?_⟩ <;> decide

/-! ## Claim theorems -/

/-- Claim C1: `validate` returns an error iff the week fails date parsing,
or the config is not valid semver, or `X` is zero, or some program report
has a build tuple absent from the allow-list, an unconfigured counter key,
or a stack key whose first line is not a configured stack prefix; otherwise
it returns nil. -/
theorem validate_error_iff_rejected (r : Report) (cfg : Config) :
    validate r cfg ≠ none ↔ reportRejected r cfg := by
  unfold validate reportRejected
  by_cases hw : parseWeek r.Week = true
  · by_cases hc : semverIsValid r.Config = true
    · by_cases hx : r.X = 0
      · simp [hw, hc, hx]
      · have hx' : (r.X == 0) = false := by simp [hx]
        simp only [hw, hc, hx', Bool.not_true, Bool.false_eq_true, if_false,
          Bool.true_eq_false, false_or]
        rw [findSome?_ne_none_iff]
        have hxne : ¬ (r.X = 0) := hx
        simp only [hxne, false_or]
        exact exists_congr fun p => and_congr_right fun _ =>
          validateProgram_ne_none_iff cfg p
    · have hc' : semverIsValid r.Config = false := by
        rw [Bool.not_eq_true] at hc; exact hc
      simp [hw, hc']
  · have hw' : parseWeek r.Week = false := by
      rw [Bool.not_eq_true] at hw; exact hw
    simp [hw']

/-- Claim C2: a POSTed payload that fails JSON decoding or report validation
is answered with HTTP 400 and the upload bucket is left exactly as it was:
no object is created or modified. -/
theorem invalid_post_rejected_without_write (payload : Except String Report)
    (cfg : Config) (b : Bucket) (h : payloadInvalid payload cfg = true) :
    (handleUpload "POST" payload cfg b).status = 400 ∧
    (handleUpload "POST" payload cfg b).bucket = b := by
  unfold handleUpload
  unfold payloadInvalid at h
  cases payload with
  | error e => simp
  | ok r =>
    cases hv : validate r cfg with
    | some e => simp [hv]
    | none => simp [hv] at h

/-- Witness for C2: a request whose body fails JSON decoding gets 400 and
the empty bucket stays empty. -/
theorem invalid_post_rejected_without_write_witness :
    (handleUpload "POST" (Except.error "unexpected EOF") cfg0 emptyBucket).status
        = 400 ∧
    (handleUpload "POST" (Except.error "unexpected EOF") cfg0 emptyBucket).bucket
        = emptyBucket :=
  invalid_post_rejected_without_write (Except.error "unexpected EOF") cfg0
    emptyBucket (by decide)

/-- Claim C3: POSTing the same valid report twice is idempotent: both
requests succeed with 200, the second request reproduces exactly the state
left by the first (same object name, same stored content), and the report
sits under its `uploadName`. -/
theorem upload_ingestion_idempotent (cfg : Config) (b : Bucket) (r : Report)
    (h : validate r cfg = none) :
    (handleUpload "POST" (.ok r) cfg b).status = 200 ∧
    handleUpload "POST" (.ok r) cfg (handleUpload "POST" (.ok r) cfg b).bucket =
      handleUpload "POST" (.ok r) cfg b ∧
    (handleUpload "POST" (.ok r) cfg b).bucket (uploadName r) = some r := by
  have h200 : handleUpload "POST" (.ok r) cfg b =
      ⟨200, "", b.write (uploadName r) r⟩ := by
    unfold handleUpload
    simp [h]
  rw [h200]
  refine ⟨rfl, ?_, ?_⟩
  · unfold handleUpload
    simp [h, bucket_write_write]
  · unfold Bucket.write
    simp

/-- Witness for C3: a concrete valid report, uploaded twice into the empty
bucket. -/
theorem upload_ingestion_idempotent_witness :
    (handleUpload "POST" (.ok report0) cfg0 emptyBucket).status = 200 ∧
    handleUpload "POST" (.ok report0) cfg0
        (handleUpload "POST" (.ok report0) cfg0 emptyBucket).bucket =
      handleUpload "POST" (.ok report0) cfg0 emptyBucket ∧
    (handleUpload "POST" (.ok report0) cfg0 emptyBucket).bucket
        (uploadName report0) = some report0 :=
  upload_ingestion_idempotent cfg0 emptyBucket report0 (by decide)

/-- Claim C4: an accepted report is stored under exactly the object name
`{Week}/{X}.json`: the week, a slash, the `%g` rendering of `X`, and the
suffix `.json`. -/
theorem upload_object_name_scheme (cfg : Config) (b : Bucket) (r : Report)
    (h : validate r cfg = none) :
    (handleUpload "POST" (.ok r) cfg b).bucket =
      Bucket.write b (r.Week ++ "/" ++ formatG r.X ++ ".json") r := by
  unfold handleUpload uploadName
  simp [h]

/-- Witness for C4: the concrete valid report is stored at
`2024-01-08/1.json`. -/
theorem upload_object_name_scheme_witness :
    (handleUpload "POST" (.ok report0) cfg0 emptyBucket).bucket =
      Bucket.write emptyBucket
        (report0.Week ++ "/" ++ formatG report0.X ++ ".json") report0 :=
  upload_object_name_scheme cfg0 emptyBucket report0 (by decide)

/-- Claim C5: on a platform of the static disabled list, `Uploader.Run`
returns at once with the ambient state untouched and an empty trace of
attempted uploads — whatever `findWork`, `reports` and `uploadReport`
would have done. -/
theorem run_noop_on_disabled_platform {σ τ : Type} (ops : UploaderOps σ τ)
    (goos goarch : String) (st : σ)
    (h : disabledOnPlatform goos goarch = true) :
    Uploader.Run ops goos goarch st = (st, []) := by
  unfold Uploader.Run
  rw [h]
  simp

/-- Witness for C5: on GOOS `js` the run is a no-op even for operations that
would change the state. -/
theorem run_noop_on_disabled_platform_witness :
    Uploader.Run opsDisabled "js" "amd64" 0 = (0, []) :=
  run_noop_on_disabled_platform opsDisabled "js" "amd64" 0 (by decide)

/-- Claim C6: the upload endpoint answers 405 to non-POST requests, 400
with the error text to a POST whose body fails decoding or validation, and
200 to a POST that decodes, validates and is stored. -/
theorem upload_endpoint_status_codes (method : String)
    (payload : Except String Report) (cfg : Config) (b : Bucket) :
    (handleUpload method payload cfg b).status =
      (if method = "POST" then
        match payload with
        | .error _ => 400
        | .ok r => if (validate r cfg).isSome then 400 else 200
      else 405) ∧
    (handleUpload method payload cfg b).body =
      (if method = "POST" then
        match payload with
        | .error e => e
        | .ok r => (validate r cfg).getD ""
      else "") := by
  unfold handleUpload
  by_cases hm : method = "POST"
  · simp only [hm, if_true]
    cases payload with
    | error e => simp
    | ok r => cases hv : validate r cfg <;> simp [hv]
  · simp [hm]

/-- Claim C7: when the platform is not disabled, one `Run` pass attempts the
upload of every ready report, in order — independently of what each
`uploadReport` call does to the state, so one failing upload never
suppresses the attempts that follow it. -/
theorem run_attempts_every_ready_report {σ τ : Type} (ops : UploaderOps σ τ)
    (goos goarch : String) (st : σ)
    (h : disabledOnPlatform goos goarch = false) :
    (Uploader.Run ops goos goarch st).2 = readyReports ops st := by
  unfold Uploader.Run readyReports
  rw [h]
  simp only [Bool.false_eq_true, if_false]
  rw [foldl_upload_trace]
  simp

/-- Witness for C7: with three ready reports, a `reports` error and a
failing upload of the middle one, all three uploads are still attempted. -/
theorem run_attempts_every_ready_report_witness :
    (Uploader.Run opsOneFails "linux" "amd64" 0).2 = ["a", "b", "c"] :=
  (run_attempts_every_ready_report opsOneFails "linux" "amd64" 0
    (by decide)).trans rfl

/-- Counterexample to claim C8 as stated: the sanitized counter name that
`TestViaStderr` asserts contains the frame line
`golang.org/x/telemetry/crashmonitor.grandchild:1`, which names a symbol of
the crashmonitor package — so the sanitized output is not free of frames
from the crash-monitor's own package. -/
theorem sanitized_name_contains_crashmonitor_frame :
    "golang.org/x/telemetry/crashmonitor.grandchild:1" ∈
        frameLines viaStderrWant ∧
    frameInCrashmonitorPkg
        "golang.org/x/telemetry/crashmonitor.grandchild:1" = true := by
  constructor
  · decide
  · decide

/-- Claim C8 (amended): what the expected sanitized outputs exclude is the
crash-monitor's internal machinery, not every symbol living in the
crashmonitor package: no frame line of either test's expected counter name
names one of the monitor's capture/report functions. -/
theorem sanitized_name_excludes_monitor_machinery :
    ((frameLines viaStderrWant ++ frameLines startPanicWant).all (fun l =>
      monitorMachineryFuncs.all (fun f => !frameIsCrashmonitorFunc l f))) =
      true := by
  decide

/-- Claim C9: the diagnostic logged by `handleUpload`'s `warn` for a bad
payload or report appends a bounded error text: at most 80 characters, and
exactly the first 79 characters followed by an ellipsis when the error
message is longer than 80 characters. -/
theorem warn_log_bounded (msg s : String) :
    warnLine msg s = msg ++ ": " ++ truncateForLog s ∧
    (truncateForLog s).toList.length ≤ 80 ∧
    truncateForLog s =
      (if 80 < s.toList.length then ((s.toList.take 79).asString).push '…'
       else s) := by
  refine ⟨rfl, ?_, rfl⟩
  unfold truncateForLog
  by_cases h : 80 < s.toList.length
  · simp only [h, if_true]
    have hpush : ((s.toList.take 79).asString.push '…').toList
        = s.toList.take 79 ++ ['…'] := rfl
    rw [hpush]
    simp only [List.length_append, List.length_take, List.length_cons,
      List.length_nil]
    omega
  · simp only [h, if_false]
    omega

/-- Claim C10: a report with no program reports passes the per-program
checks vacuously — `validate` returns nil exactly when the week parses, the
config is valid semver and `X` is non-zero. -/
theorem validate_empty_programs (r : Report) (cfg : Config)
    (h : r.Programs = []) :
    validate r cfg = none ↔
      (parseWeek r.Week = true ∧ semverIsValid r.Config = true ∧ r.X ≠ 0) := by
  unfold validate
  rw [h]
  by_cases hw : parseWeek r.Week = true <;>
    by_cases hc : semverIsValid r.Config = true <;>
      by_cases hx : r.X = 0 <;>
        simp [hw, hc, hx, List.findSome?, Bool.not_eq_true] at *

/-- Witness for C10: the concrete program-free report is accepted. -/
theorem validate_empty_programs_witness : validate reportEmpty cfg0 = none :=
  (validate_empty_programs reportEmpty cfg0 rfl).mpr (by decide)

end Telemetry
